/-
Verification of the orchestration and metric-protocol logic of
`com_kitchens/models/xclip_module.py` (class `XCLIPLitModule`).

The module is embedded shallowly:

* Tensors are modelled per batch dimension: each `StepOutput` record holds,
  for every field the Python code retains (lines 138-151 / 188-201), one
  list with one entry per batch item.  The payload of an individual
  embedding item is opaque for every property considered here, so items
  are modelled as integers.
* The external model collaborator's `get_similarity_logits` and the
  external scorer `compute_scores` are parameters of the definitions
  (the Python code delegates to `self.model` / `compute_scores`).
* A distributed run is a list of per-process `StepOutput` lists indexed by
  rank; `torch.distributed.gather_object` is modelled by its contract:
  the coordinator's `object_gather_list` receives every rank's object in
  rank order, i.e. the world list itself.
* The observable behaviour of the epoch-end hooks is modelled as the list
  of effects they perform, in program order: the collective gather, the
  metric `update` calls, the `log` calls, and a `crash` marker for a
  raised exception (e.g. unpacking `None` into a 3-tuple).
-/
import Mathlib

/-- One record appended by `validation_step` (lines 138-151) or `test_step`
(lines 188-201): host-memory copies of the per-batch tensors.  Each field
is a list over the batch dimension. -/
structure StepOutput where
  sequence_output : List Int
  seq_features : List Int
  visual_output : List Int
  is_query : List Bool
  is_pool : List Bool
  recipe_id : List Int
  kitchen_id : List Int
  ap_id : List Int
  attention_mask : List Int
  video_mask : List Int
deriving DecidableEq, Repr

/-- An identity key: one row of `recipe_kitchen_ap_ids` (lines 313-319). -/
abbrev IdKey := Int × Int × Int

/-- A similarity matrix, one row per first-dimension item. -/
abbrev Mat := List (List ℚ)

/-- The external model's `get_similarity_logits` collaborator: maps the
pool-filtered sequence output, sequence features, query-filtered visual
output, pool-filtered attention mask and query-filtered video mask to a
similarity matrix (lines 333-340). -/
abbrev SimFn := List Int → List Int → List Int → List Int → List Int → Mat

/-- The metrics mapping returned by the external scorer: metric name to
scalar value. -/
abbrev Metrics := String → ℚ

/-- The external `compute_scores` collaborator (line 344): receives the
(transposed) logits, the pool identity keys and the query identity keys. -/
abbrev ScoreFn := Mat → List IdKey → List IdKey → Metrics

/-- `_gather_outputs` (lines 71-80): every non-coordinator rank sends its
object and gets `None`; the coordinator's `object_gather_list` holds, per
the collective's contract, each rank's object in rank order — i.e. the
world list itself — and the comprehension on line 80 flattens it. -/
def gather_outputs {α : Type} (world : List (List α)) (rank : Nat) :
    Option (List α) :=
  if rank ≠ 0 then
    none
  else
    some world.flatten

/-- This process's own `self.valid_step_outputs` / `self.test_step_outputs`
list inside a world indexed by rank. -/
def localList (world : List (List StepOutput)) (rank : Nat) :
    List StepOutput :=
  world.getD rank []

/-- Boolean-mask tensor indexing, e.g. `visual_output[is_query]`
(lines 324-330, 346-347). -/
def maskSelect {α : Type} (mask : List Bool) (xs : List α) : List α :=
  ((mask.zip xs).filter (fun bx => bx.1)).map (fun bx => bx.2)

/-- `sum(mask)` on a boolean tensor (line 351): the number of `true`s. -/
def countTrue (mask : List Bool) : Nat :=
  (mask.filter (fun b => b)).length

/-- Three-way zip, for assembling identity-key triples. -/
def zip3 : List Int → List Int → List Int → List IdKey
  | a :: as, b :: bs, c :: cs => (a, b, c) :: zip3 as bs cs
  | _, _, _ => []

/-- `torch.cat` of one retained field over all step outputs
(lines 308-321). -/
def catField (f : StepOutput → List Int) (outputs : List StepOutput) :
    List Int :=
  (outputs.map f).flatten

/-- Concatenated boolean field (`is_query` / `is_pool`, lines 320-321). -/
def catFlag (f : StepOutput → List Bool) (outputs : List StepOutput) :
    List Bool :=
  (outputs.map f).flatten

/-- `torch.cat` of all `is_query` flags (line 320). -/
def catIsQuery (outputs : List StepOutput) : List Bool :=
  catFlag StepOutput.is_query outputs

/-- `torch.cat` of all `is_pool` flags (line 321). -/
def catIsPool (outputs : List StepOutput) : List Bool :=
  catFlag StepOutput.is_pool outputs

/-- The rows of `recipe_kitchen_ap_ids` (lines 313-319): per-item identity
triples of the concatenated id tensors. -/
def catIds (outputs : List StepOutput) : List IdKey :=
  zip3 (catField StepOutput.recipe_id outputs)
    (catField StepOutput.kitchen_id outputs)
    (catField StepOutput.ap_id outputs)

/-- `visual_output[is_query]` (line 324). -/
def queryVis (outputs : List StepOutput) : List Int :=
  maskSelect (catIsQuery outputs) (catField StepOutput.visual_output outputs)

/-- `video_mask[is_query]` (line 325). -/
def queryVmask (outputs : List StepOutput) : List Int :=
  maskSelect (catIsQuery outputs) (catField StepOutput.video_mask outputs)

/-- `sequence_output[is_pool]` (line 328). -/
def poolSeq (outputs : List StepOutput) : List Int :=
  maskSelect (catIsPool outputs) (catField StepOutput.sequence_output outputs)

/-- `seq_features[is_pool]` (line 329). -/
def poolFeat (outputs : List StepOutput) : List Int :=
  maskSelect (catIsPool outputs) (catField StepOutput.seq_features outputs)

/-- `attention_mask[is_pool]` (line 330). -/
def poolAttn (outputs : List StepOutput) : List Int :=
  maskSelect (catIsPool outputs) (catField StepOutput.attention_mask outputs)

/-- `recipe_kitchen_ap_ids[is_pool]` (line 346). -/
def poolIds (outputs : List StepOutput) : List IdKey :=
  maskSelect (catIsPool outputs) (catIds outputs)

/-- `recipe_kitchen_ap_ids[is_query]` (line 347). -/
def queryIds (outputs : List StepOutput) : List IdKey :=
  maskSelect (catIsQuery outputs) (catIds outputs)

/-- The raw `retrieve_logits` returned by `get_similarity_logits`
(lines 333-340), before transposition. -/
def rawLogits (sim : SimFn) (outputs : List StepOutput) : Mat :=
  sim (poolSeq outputs) (poolFeat outputs) (queryVis outputs)
    (poolAttn outputs) (queryVmask outputs)

/-- Matrix transposition, `retrieve_logits.T` (line 342), for rectangular
matrices: column `j` of the input becomes row `j` of the result. -/
def transposeM (m : Mat) : Mat :=
  match m with
  | [] => []
  | r :: rs =>
    (List.range r.length).map (fun j => (r :: rs).map (fun row => row.getD j 0))

/-- The transposed logits actually handed to `compute_scores` (line 342,
comment: `(n_seq, n_vis) -> (n_vis, n_seq)`). -/
def retrieveLogits (sim : SimFn) (outputs : List StepOutput) : Mat :=
  transposeM (rawLogits sim outputs)

/-- `_compute_v2t_metrics` (lines 296-351).  On an empty output list the
Python function executes a bare `return`, i.e. yields `None` (line 302) —
modelled as `none`.  Otherwise it returns the scorer's metrics together
with `sum(is_pool)` and `sum(is_query)` (line 351). -/
def compute_v2t_metrics (sim : SimFn) (score : ScoreFn)
    (outputs : List StepOutput) : Option (Metrics × Nat × Nat) :=
  if outputs.length = 0 then
    none
  else
    some
      (score (retrieveLogits sim outputs) (poolIds outputs) (queryIds outputs),
        countTrue (catIsPool outputs), countTrue (catIsQuery outputs))

/-- One observable side effect of an epoch-end hook, in program order:
the collective gather (with the value it returned on this process), a
running-mean metric `update`, a `log` call, or a raised exception. -/
inductive Effect where
  | gatherEv : Option (List StepOutput) → Effect
  | update : String → ℚ → Effect
  | logMetric : String → Effect
  | crash : Effect
deriving DecidableEq, Repr

/-- The metric `update` calls of a trace, in order (name, value). -/
def updatesOf (tr : List Effect) : List (String × ℚ) :=
  tr.filterMap (fun e =>
    match e with
    | Effect.update n v => some (n, v)
    | _ => none)

/-- The metric names passed to `log` in a trace, in order. -/
def logsOf (tr : List Effect) : List String :=
  tr.filterMap (fun e =>
    match e with
    | Effect.logMetric n => some n
    | _ => none)

/-- The six `update` calls of `on_validation_epoch_end` (lines 163-168). -/
def valUpdateEffects (m : Metrics) : List Effect :=
  [Effect.update "val_m1_recall_at_1" (m "M1-R1"),
    Effect.update "val_m1_recall_at_5" (m "M1-R5"),
    Effect.update "val_m1_recall_at_10" (m "M1-R10"),
    Effect.update "val_m2_recall_at_1" (m "M2-R1"),
    Effect.update "val_m2_recall_at_5" (m "M2-R5"),
    Effect.update "val_m2_recall_at_10" (m "M2-R10")]

/-- The six metric names logged at validation epoch end (lines 171-176). -/
def valLogNames : List String :=
  ["val/M1-R@1", "val/M1-R@5", "val/M1-R@10",
    "val/M2-R@1", "val/M2-R@5", "val/M2-R@10"]

/-- The six `log_on_epoch` calls of lines 171-176. -/
def valLogEffects : List Effect :=
  valLogNames.map Effect.logMetric

/-- The `update` calls of `on_test_epoch_end` (lines 215-220). -/
def testUpdateEffects (m : Metrics) (n_seq n_vid : Nat) : List Effect :=
  [Effect.update "test_m2_recall_at_1" (m "M2-R1"),
    Effect.update "test_m2_recall_at_5" (m "M2-R5"),
    Effect.update "test_m2_recall_at_10" (m "M2-R10"),
    Effect.update "test_m2_median" (m "M2-median"),
    Effect.update "test_n_seq" (n_seq : ℚ),
    Effect.update "test_n_vid" (n_vid : ℚ)]

/-- The six metric names logged at test epoch end (lines 229-235). -/
def testLogNames : List String :=
  ["test/M2-R@1", "test/M2-R@5", "test/M2-R@10",
    "test/M2-median", "test/n_seq", "test/n_vid"]

/-- The six `log` calls of lines 229-235. -/
def testLogEffects : List Effect :=
  testLogNames.map Effect.logMetric

/-- `on_validation_epoch_end` (lines 153-176) as executed by the process
of rank `rank` in a world whose rank-indexed local `valid_step_outputs`
lists are `world`.  Line 155 invokes the collective gather; line 156 then
rebinds the variable to the process-local list, discarding the gathered
result.  On the coordinator, `v2t_metrics, _, _ = ...` on line 160 raises
a `TypeError` when `_compute_v2t_metrics` returned `None` — modelled by a
`crash` effect ending the trace.  The six log calls (lines 171-176) run
on every rank, outside the coordinator guard. -/
def on_validation_epoch_end (sim : SimFn) (score : ScoreFn)
    (world : List (List StepOutput)) (rank : Nat) : List Effect :=
  let gathered := gather_outputs world rank
  let valid_step_outputs := localList world rank
  Effect.gatherEv gathered ::
    (if rank = 0 then
      match compute_v2t_metrics sim score valid_step_outputs with
      | none => [Effect.crash]
      | some (m, _, _) => valUpdateEffects m ++ valLogEffects
    else valLogEffects)

/-- `on_test_epoch_end` (lines 203-235): unlike the validation hook, the
gathered result is used directly (line 205 has no rebinding to the local
list).  On the coordinator the gather always yields the flattened world;
the `none` branch (where `len(None)` would raise) is kept as a crash for
faithfulness but is unreachable at rank 0. -/
def on_test_epoch_end (sim : SimFn) (score : ScoreFn)
    (world : List (List StepOutput)) (rank : Nat) : List Effect :=
  let test_step_outputs := gather_outputs world rank
  Effect.gatherEv test_step_outputs ::
    (if rank = 0 then
      match test_step_outputs with
      | none => [Effect.crash]
      | some outs =>
        match compute_v2t_metrics sim score outs with
        | none => [Effect.crash]
        | some (m, n_seq, n_vid) => testUpdateEffects m n_seq n_vid ++ testLogEffects
    else testLogEffects)

/-- Modelled from the spec: the behaviour claimed for the test epoch end —
"the same gather-then-discard-then-recompute-locally pattern" as
validation — i.e. `on_test_epoch_end` with the gathered result discarded
in favour of the process-local list, as `on_validation_epoch_end` does on
line 156.  This definition follows the spec's words; the code's actual
test hook is `on_test_epoch_end` above. -/
def on_test_epoch_end_spec_local (sim : SimFn) (score : ScoreFn)
    (world : List (List StepOutput)) (rank : Nat) : List Effect :=
  let gathered := gather_outputs world rank
  let test_step_outputs := localList world rank
  Effect.gatherEv gathered ::
    (if rank = 0 then
      match compute_v2t_metrics sim score test_step_outputs with
      | none => [Effect.crash]
      | some (m, n_seq, n_vid) => testUpdateEffects m n_seq n_vid ++ testLogEffects
    else testLogEffects)

/-- `num_train_optimization_steps` (lines 238-245).  Python's `/` is true
division, producing a float; it is modelled exactly over ℚ (all values in
the properties considered are exactly representable). -/
def num_train_optimization_steps
    (train_data_size gradient_accumulation_steps epochs : ℚ) : ℚ :=
  ((train_data_size + gradient_accumulation_steps - 1)
      / gradient_accumulation_steps)
    * epochs

/-- Does `pat` occur at the head of `s`? -/
def charsLeading : List Char → List Char → Bool
  | [], _ => true
  | _ :: _, [] => false
  | p :: ps, c :: cs => p == c && charsLeading ps cs

/-- Does `pat` occur contiguously anywhere in `s`? -/
def charsWithin (pat : List Char) : List Char → Bool
  | [] => pat.isEmpty
  | c :: cs => charsLeading pat (c :: cs) || charsWithin pat cs

/-- Python's substring test `pat in s` on strings. -/
def strContains (s pat : String) : Bool :=
  charsWithin pat.toList s.toList

/-- `decay_param_tp` (lines 254-256): pairs whose name contains none of
the no-decay markers. -/
def decay_param_tp {P : Type} (no_decay : List String)
    (param_optimizer : List (String × P)) : List (String × P) :=
  param_optimizer.filter
    (fun np => !(no_decay.any (fun nd => strContains np.1 nd)))

/-- `no_decay_param_tp` (line 257): pairs whose name contains a no-decay
marker. -/
def no_decay_param_tp {P : Type} (no_decay : List String)
    (param_optimizer : List (String × P)) : List (String × P) :=
  param_optimizer.filter
    (fun np => no_decay.any (fun nd => strContains np.1 nd))

/-- `decay_clip_param_tp` (line 259): decay pairs whose name contains the
backbone marker (`"clip."` in the code). -/
def decay_clip_param_tp {P : Type} (no_decay : List String) (marker : String)
    (param_optimizer : List (String × P)) : List (String × P) :=
  (decay_param_tp no_decay param_optimizer).filter
    (fun np => strContains np.1 marker)

/-- `decay_noclip_param_tp` (line 260). -/
def decay_noclip_param_tp {P : Type} (no_decay : List String) (marker : String)
    (param_optimizer : List (String × P)) : List (String × P) :=
  (decay_param_tp no_decay param_optimizer).filter
    (fun np => !(strContains np.1 marker))

/-- `no_decay_clip_param_tp` (line 262). -/
def no_decay_clip_param_tp {P : Type} (no_decay : List String)
    (marker : String) (param_optimizer : List (String × P)) :
    List (String × P) :=
  (no_decay_param_tp no_decay param_optimizer).filter
    (fun np => strContains np.1 marker)

/-- `no_decay_noclip_param_tp` (line 263). -/
def no_decay_noclip_param_tp {P : Type} (no_decay : List String)
    (marker : String) (param_optimizer : List (String × P)) :
    List (String × P) :=
  (no_decay_param_tp no_decay param_optimizer).filter
    (fun np => !(strContains np.1 marker))

/-- One entry of `optimizer_grouped_parameters` (lines 266-279).  A group
dict without an explicit `"lr"` key (`lr := none`) makes the optimizer
fall back to the base learning rate it was constructed with. -/
structure ParamGroup (P : Type) where
  params : List P
  weight_decay : ℚ
  lr : Option ℚ
deriving DecidableEq, Repr

/-- The four-way parameter grouping of `configure_optimizers`
(lines 251-279), with the no-decay marker list and the backbone marker
as parameters; the code instantiates them with
`["bias", "LayerNorm.bias", "LayerNorm.weight"]` and `"clip."`
(see `configure_optimizers_groups`).  `weight_decay = 0.2` (line 265). -/
def groupParameters {P : Type} (no_decay : List String) (marker : String)
    (lr coef_lr : ℚ) (param_optimizer : List (String × P)) :
    List (ParamGroup P) :=
  [⟨(decay_clip_param_tp no_decay marker param_optimizer).map
        (fun np => np.2),
      0.2, some (lr * coef_lr)⟩,
    ⟨(decay_noclip_param_tp no_decay marker param_optimizer).map
        (fun np => np.2),
      0.2, none⟩,
    ⟨(no_decay_clip_param_tp no_decay marker param_optimizer).map
        (fun np => np.2),
      0, some (lr * coef_lr)⟩,
    ⟨(no_decay_noclip_param_tp no_decay marker param_optimizer).map
        (fun np => np.2),
      0, none⟩]

/-- The code's no-decay marker list (line 252). -/
def noDecayDefault : List String :=
  ["bias", "LayerNorm.bias", "LayerNorm.weight"]

/-- The grouping exactly as instantiated by `configure_optimizers`
(lines 251-279). -/
def configure_optimizers_groups {P : Type} (lr coef_lr : ℚ)
    (param_optimizer : List (String × P)) : List (ParamGroup P) :=
  groupParameters noDecayDefault "clip." lr coef_lr param_optimizer

/-- A concrete instance of the model collaborator respecting its shape
contract: the similarity of sequence item `x` and visual item `y` is
`x * y`, giving the `(n_seq, n_vis)` matrix noted on line 341. -/
def simShape : SimFn :=
  fun s _f v _a _m => s.map (fun x => v.map (fun y => ((x * y : Int) : ℚ)))

/-- A concrete scorer instance: every metric equals the number of pool
identity keys received (enough to observe which outputs were scored). -/
def score0 : ScoreFn :=
  fun _mat pool _query => fun _name => (pool.length : ℚ)

/-- A one-item step output, query and pool. -/
def o1 : StepOutput :=
  ⟨[1], [1], [1], [true], [true], [1], [1], [1], [1], [1]⟩

/-- A second one-item step output with different payloads. -/
def o2 : StepOutput :=
  ⟨[2], [2], [2], [true], [true], [2], [2], [2], [2], [2]⟩

/-- A five-item step output whose first two items are pool entries and
whose last three are query entries. -/
def oC : StepOutput :=
  ⟨[1, 2, 3, 4, 5], [1, 2, 3, 4, 5], [6, 7, 8, 9, 10],
    [false, false, true, true, true], [true, true, false, false, false],
    [1, 2, 3, 4, 5], [1, 2, 3, 4, 5], [1, 2, 3, 4, 5],
    [1, 1, 1, 1, 1], [1, 1, 1, 1, 1]⟩

/-- Batch-schema invariant of a step output: all retained per-item fields
have the same batch length (they are slices of one batch, lines 138-151). -/
def wfOutput (o : StepOutput) : Bool :=
  (o.sequence_output.length == o.is_query.length) &&
  (o.seq_features.length == o.is_query.length) &&
  (o.visual_output.length == o.is_query.length) &&
  (o.is_pool.length == o.is_query.length) &&
  (o.recipe_id.length == o.is_query.length) &&
  (o.kitchen_id.length == o.is_query.length) &&
  (o.ap_id.length == o.is_query.length) &&
  (o.attention_mask.length == o.is_query.length) &&
  (o.video_mask.length == o.is_query.length)

/- ### Helper lemmas -/

lemma flatten_length_uniform {α : Type} (world : List (List α)) (L : Nat)
    (h : ∀ l ∈ world, l.length = L) :
    world.flatten.length = world.length * L := by
  induction world with
  | nil => simp
  | cons hd tl ih =>
    simp only [List.flatten_cons, List.length_append, List.length_cons]
    rw [h hd (by simp), ih (fun l hl => h l (by simp [hl]))]
    ring

lemma flatten_decompose {α : Type} (world : List (List α)) (i : Nat)
    (hi : i < world.length) :
    world.flatten =
      (world.take i).flatten ++ world.get ⟨i, hi⟩ ++
        (world.drop (i + 1)).flatten := by
  conv_lhs => rw [← List.take_append_drop i world]
  rw [List.drop_eq_getElem_cons hi]
  simp only [List.flatten_append, List.flatten_cons, List.append_assoc,
    List.get_eq_getElem]

lemma filter_not_append_perm {α : Type} (p : α → Bool) (l : List α) :
    List.Perm (l.filter p ++ l.filter (fun a => !(p a))) l := by
  induction l with
  | nil => simp
  | cons a t ih =>
    by_cases h : p a
    · simpa [h] using ih.cons a
    · simp only [List.filter_cons, h, Bool.not_false, if_true, if_false,
        Bool.false_eq_true, ite_false, ite_true]
      exact List.perm_middle.trans (ih.cons a)

lemma maskSelect_length {α : Type} (mask : List Bool) (xs : List α)
    (h : mask.length = xs.length) :
    (maskSelect mask xs).length = countTrue mask := by
  induction mask generalizing xs with
  | nil => simp [maskSelect, countTrue]
  | cons b bs ih =>
    cases xs with
    | nil => simp at h
    | cons x xt =>
      have h' : bs.length = xt.length := by simpa using h
      by_cases hb : b = true <;>
        simp [maskSelect, countTrue, hb, ih xt h', maskSelect, countTrue] <;>
        simpa [maskSelect, countTrue] using ih xt h'

lemma zip3_length (a b c : List Int) (hab : a.length = b.length)
    (hac : a.length = c.length) : (zip3 a b c).length = a.length := by
  induction a generalizing b c with
  | nil => simp [zip3]
  | cons x xs ih =>
    cases b with
    | nil => simp at hab
    | cons y ys =>
      cases c with
      | nil => simp at hac
      | cons z zs =>
        simp only [zip3, List.length_cons]
        rw [ih ys zs (by simpa using hab) (by simpa using hac)]

lemma flatten_map_length_eq {β γ : Type} (f : StepOutput → List β)
    (g : StepOutput → List γ) (outputs : List StepOutput)
    (h : ∀ o ∈ outputs, (f o).length = (g o).length) :
    ((outputs.map f).flatten).length = ((outputs.map g).flatten).length := by
  induction outputs with
  | nil => simp
  | cons o os ih =>
    simp only [List.map_cons, List.flatten_cons, List.length_append]
    rw [h o (by simp), ih (fun x hx => h x (by simp [hx]))]

lemma transposeM_rows (m : Mat) (C : Nat) (hm : m ≠ [])
    (h : ∀ row ∈ m, row.length = C) :
    (transposeM m).length = C ∧
      ∀ row ∈ transposeM m, row.length = m.length := by
  cases m with
  | nil => exact absurd rfl hm
  | cons r rs =>
    constructor
    · simp [transposeM, h r (by simp)]
    · intro row hrow
      simp only [transposeM, List.mem_map, List.mem_range] at hrow
      obtain ⟨j, _, rfl⟩ := hrow
      simp

lemma transposeM_entry (m : Mat) (C : Nat) (h : ∀ row ∈ m, row.length = C)
    (i j : Nat) (hi : i < C) (hj : j < m.length) :
    ((transposeM m).getD i []).getD j 0 = (m.getD j []).getD i 0 := by
  cases m with
  | nil => simp at hj
  | cons r rs =>
    have hrC : r.length = C := h r (by simp)
    have h1 : i < ((List.range r.length).map
        (fun j => (r :: rs).map (fun row => row.getD j 0))).length := by
      simp [hrC, hi]
    have hrow : (transposeM (r :: rs)).getD i [] =
        (r :: rs).map (fun row => row.getD i 0) := by
      rw [transposeM, List.getD_eq_getElem _ _ h1, List.getElem_map,
        List.getElem_range]
    rw [hrow]
    have h2 : j < ((r :: rs).map (fun row => row.getD i 0)).length := by
      simpa using hj
    rw [List.getD_eq_getElem _ _ h2, List.getElem_map,
      List.getD_eq_getElem _ _ hj]

lemma simShape_rect : ∀ s f v a m : List Int,
    (simShape s f v a m).length = s.length ∧
      ∀ row ∈ simShape s f v a m, row.length = v.length := by
  intro s f v a m
  constructor
  · simp [simShape]
  · intro row hrow
    simp only [simShape, List.mem_map] at hrow
    obtain ⟨x, _, rfl⟩ := hrow
    simp

/- ### Claim theorems -/

/-- C3: for every world and every uniform per-process list length `L`,
the coordinator's `_gather_outputs` call returns the flattened
concatenation of all per-process lists, of total length `W * L`, in rank
order with each process's internal ordering preserved (rank `i`'s list
appears contiguously starting at offset `i * L`), while every
non-coordinator call returns `None`. -/
theorem gather_flatten_rank_order {α : Type} (world : List (List α))
    (L : Nat) (h : ∀ l ∈ world, l.length = L) :
    gather_outputs world 0 = some world.flatten ∧
    world.flatten.length = world.length * L ∧
    (∀ i (hi : i < world.length),
      world.flatten =
        (world.take i).flatten ++ world.get ⟨i, hi⟩ ++
          (world.drop (i + 1)).flatten ∧
      ((world.take i).flatten).length = i * L) ∧
    (∀ rank, rank ≠ 0 → gather_outputs world rank = (none : Option (List α))) := by
  refine ⟨by simp [gather_outputs], flatten_length_uniform world L h, ?_, ?_⟩
  · intro i hi
    refine ⟨flatten_decompose world i hi, ?_⟩
    have htk : ∀ l ∈ world.take i, l.length = L :=
      fun l hl => h l (List.mem_of_mem_take hl)
    rw [flatten_length_uniform (world.take i) L htk, List.length_take,
      Nat.min_eq_left (Nat.le_of_lt hi)]
  · intro rank hr
    simp [gather_outputs, hr]

/-- Witness for C3 at a concrete two-process world with lists of
length 2. -/
theorem gather_flatten_rank_order_witness :
    gather_outputs [[1, 2], [3, 4]] 0 = some [1, 2, 3, 4] ∧
    gather_outputs [[1, 2], [3, 4]] 1 = (none : Option (List Nat)) :=
  ⟨(gather_flatten_rank_order [[1, 2], [3, 4]] 2 (by decide)).1,
    (gather_flatten_rank_order [[1, 2], [3, 4]] 2 (by decide)).2.2.2 1
      (by decide)⟩

/-- C4: the step count on lines 238-245 is computed with Python's true
division `/`, not floor division; at `train_data_size = 10`,
`gradient_accumulation_steps = 4`, `epochs = 1` it is `13/4 = 3.25` — a
non-integer — whereas the claimed ceiling value
`⌈10 / 4⌉ * 1 = (10 + 4 - 1) // 4 * 1` is `3`. -/
theorem optimization_steps_not_ceiling :
    num_train_optimization_steps 10 4 1 = 13 / 4 ∧
    (∀ z : Int, num_train_optimization_steps 10 4 1 ≠ (z : ℚ)) ∧
    num_train_optimization_steps 10 4 1 ≠ (((10 + 4 - 1) / 4 * 1 : Nat) : ℚ) := by
  have h : num_train_optimization_steps 10 4 1 = 13 / 4 := by
    norm_num [num_train_optimization_steps]
  refine ⟨h, ?_, ?_⟩
  · rw [h]
    intro z hz
    have h4 : (13 : ℚ) = (z : ℚ) * 4 := by
      field_simp at hz
      linarith
    have h13 : (13 : Int) = z * 4 := by exact_mod_cast h4
    omega
  · rw [h]
    norm_num

/-- C5: on the parameter set
`["backbone.layer.weight", "backbone.layer.bias", "fusion.weight",
"fusion.bias"]` with no-decay markers `{"bias"}` and backbone marker
`{"backbone"}`, the grouping of `configure_optimizers` yields four
singleton groups; the groups holding the two `.weight` parameters have
weight decay `0.2`, those holding the two `.bias` parameters `0.0`; the
two backbone groups carry learning rate `lr * coef_lr` and the two fusion
groups carry no group-local rate, i.e. the optimizer's unscaled base
rate. -/
theorem param_groups_four_singletons (lr coef_lr : ℚ) :
    groupParameters ["bias"] "backbone" lr coef_lr
        [("backbone.layer.weight", (0 : Nat)), ("backbone.layer.bias", 1),
          ("fusion.weight", 2), ("fusion.bias", 3)] =
      [⟨[0], 0.2, some (lr * coef_lr)⟩, ⟨[2], 0.2, none⟩,
        ⟨[1], 0, some (lr * coef_lr)⟩, ⟨[3], 0, none⟩] := by
  rfl

/-- C7: on an empty output list `_compute_v2t_metrics` returns `None`
(line 302), and the coordinator's validation epoch end then raises a
`TypeError` unpacking it into `v2t_metrics, _, _` (line 160): the trace
ends in a crash instead of the claimed graceful no-op, and none of the
metric updates or log calls happen. -/
theorem empty_outputs_crash (sim : SimFn) (score : ScoreFn) :
    compute_v2t_metrics sim score [] = none ∧
    on_validation_epoch_end sim score [[]] 0 =
      [Effect.gatherEv (some []), Effect.crash] := by
  constructor
  · simp [compute_v2t_metrics]
  · simp [on_validation_epoch_end, gather_outputs, compute_v2t_metrics,
      localList]

/-- C10: on every non-coordinator process the test epoch end is safe:
its trace is exactly the gather (returning `None`) followed by the six
log calls — the `None` is never passed to the metric computation and no
crash occurs, because the metric branch is guarded by the coordinator
check. -/
theorem test_epoch_end_noncoordinator_safe (sim : SimFn) (score : ScoreFn)
    (world : List (List StepOutput)) (rank : Nat) (h : rank ≠ 0) :
    on_test_epoch_end sim score world rank =
      Effect.gatherEv none :: testLogEffects ∧
    Effect.crash ∉ on_test_epoch_end sim score world rank := by
  have hg : gather_outputs world rank = none := by
    simp [gather_outputs, h]
  have h1 : on_test_epoch_end sim score world rank =
      Effect.gatherEv none :: testLogEffects := by
    simp [on_test_epoch_end, hg, h]
  refine ⟨h1, ?_⟩
  rw [h1]
  decide

/-- Witness for C10 at rank 1 of a two-process world. -/
theorem test_epoch_end_noncoordinator_safe_witness :
    on_test_epoch_end simShape score0 [[o1], [o2]] 1 =
      Effect.gatherEv none :: testLogEffects ∧
    Effect.crash ∉ on_test_epoch_end simShape score0 [[o1], [o2]] 1 :=
  test_epoch_end_noncoordinator_safe simShape score0 [[o1], [o2]] 1
    (by decide)

/-- C6: for every parameter list, the grouping of `configure_optimizers`
(no-decay markers `["bias", "LayerNorm.bias", "LayerNorm.weight"]`,
backbone marker `"clip."`) splits it into four pairwise-disjoint groups
whose union is the whole list; the two decay groups get weight decay
`0.2`, the two no-decay groups `0.0`; the two backbone (`clip`) groups
get learning rate `lr * coef_lr` and the two non-backbone groups fall
back to the unscaled base learning rate. -/
theorem param_groups_partition {P : Type} (lr coef_lr : ℚ)
    (l : List (String × P)) :
    List.Perm
      (decay_clip_param_tp noDecayDefault "clip." l ++
        decay_noclip_param_tp noDecayDefault "clip." l ++
        no_decay_clip_param_tp noDecayDefault "clip." l ++
        no_decay_noclip_param_tp noDecayDefault "clip." l) l ∧
    (∀ x : String × P,
      (x ∈ decay_clip_param_tp noDecayDefault "clip." l →
        x ∉ decay_noclip_param_tp noDecayDefault "clip." l) ∧
      (x ∈ decay_clip_param_tp noDecayDefault "clip." l →
        x ∉ no_decay_clip_param_tp noDecayDefault "clip." l) ∧
      (x ∈ decay_clip_param_tp noDecayDefault "clip." l →
        x ∉ no_decay_noclip_param_tp noDecayDefault "clip." l) ∧
      (x ∈ decay_noclip_param_tp noDecayDefault "clip." l →
        x ∉ no_decay_clip_param_tp noDecayDefault "clip." l) ∧
      (x ∈ decay_noclip_param_tp noDecayDefault "clip." l →
        x ∉ no_decay_noclip_param_tp noDecayDefault "clip." l) ∧
      (x ∈ no_decay_clip_param_tp noDecayDefault "clip." l →
        x ∉ no_decay_noclip_param_tp noDecayDefault "clip." l)) ∧
    (configure_optimizers_groups lr coef_lr l).map
        (fun g => (g.params, g.weight_decay, g.lr)) =
      [((decay_clip_param_tp noDecayDefault "clip." l).map
          (fun np => np.2), 0.2, some (lr * coef_lr)),
        ((decay_noclip_param_tp noDecayDefault "clip." l).map
          (fun np => np.2), 0.2, none),
        ((no_decay_clip_param_tp noDecayDefault "clip." l).map
          (fun np => np.2), 0, some (lr * coef_lr)),
        ((no_decay_noclip_param_tp noDecayDefault "clip." l).map
          (fun np => np.2), 0, none)] ∧
    (configure_optimizers_groups lr coef_lr l).map
        (fun g => g.lr.getD lr) =
      [lr * coef_lr, lr, lr * coef_lr, lr] := by
  refine ⟨?_, ?_, ?_, ?_⟩
  · have h1 : List.Perm
        (decay_clip_param_tp noDecayDefault "clip." l ++
          decay_noclip_param_tp noDecayDefault "clip." l)
        (decay_param_tp noDecayDefault l) := by
      simp only [decay_clip_param_tp, decay_noclip_param_tp]
      exact filter_not_append_perm (fun np => strContains np.1 "clip.")
        (decay_param_tp noDecayDefault l)
    have h2 : List.Perm
        (no_decay_clip_param_tp noDecayDefault "clip." l ++
          no_decay_noclip_param_tp noDecayDefault "clip." l)
        (no_decay_param_tp noDecayDefault l) := by
      simp only [no_decay_clip_param_tp, no_decay_noclip_param_tp]
      exact filter_not_append_perm (fun np => strContains np.1 "clip.")
        (no_decay_param_tp noDecayDefault l)
    have h3 : List.Perm
        (decay_param_tp noDecayDefault l ++ no_decay_param_tp noDecayDefault l)
        l := by
      have hc : l.filter
            (fun a =>
              !(!(noDecayDefault.any (fun nd => strContains a.1 nd)))) =
          l.filter (fun a => noDecayDefault.any (fun nd => strContains a.1 nd)) :=
        List.filter_congr (fun a _ => by simp)
      have hp := filter_not_append_perm
        (fun np => !(noDecayDefault.any (fun nd => strContains np.1 nd))) l
      rw [hc] at hp
      simp only [decay_param_tp, no_decay_param_tp]
      exact hp
    have h123 := (h1.append h2).trans h3
    simpa [List.append_assoc] using h123
  · intro x
    refine ⟨?_, ?_, ?_, ?_, ?_, ?_⟩ <;>
      (intro hx hy;
        simp only [decay_clip_param_tp, decay_noclip_param_tp,
          no_decay_clip_param_tp, no_decay_noclip_param_tp, decay_param_tp,
          no_decay_param_tp, List.mem_filter, Bool.not_eq_true',
          Bool.not_eq_false'] at hx hy;
        simp_all)
  · simp [configure_optimizers_groups, groupParameters]
  · simp [configure_optimizers_groups, groupParameters]

/-- C1: at validation epoch end every rank performs the collective gather
(line 155), but the gathered result is discarded on line 156: the six
recall metrics the coordinator updates are a function of the
coordinator's process-local `valid_step_outputs` list alone — any two
worlds agreeing on the coordinator's local list produce identical update
sequences, regardless of every other process's contribution. -/
theorem val_metrics_local_only (sim : SimFn) (score : ScoreFn) :
    (∀ (world : List (List StepOutput)) (rank : Nat),
      Effect.gatherEv (gather_outputs world rank) ∈
        on_validation_epoch_end sim score world rank) ∧
    (∀ world : List (List StepOutput),
      Effect.crash ∉ on_validation_epoch_end sim score world 0 →
        (updatesOf (on_validation_epoch_end sim score world 0)).map Prod.fst =
          ["val_m1_recall_at_1", "val_m1_recall_at_5", "val_m1_recall_at_10",
            "val_m2_recall_at_1", "val_m2_recall_at_5",
            "val_m2_recall_at_10"]) ∧
    (∀ w1 w2 : List (List StepOutput),
      localList w1 0 = localList w2 0 →
        updatesOf (on_validation_epoch_end sim score w1 0) =
          updatesOf (on_validation_epoch_end sim score w2 0)) := by
  refine ⟨?_, ?_, ?_⟩
  · intro world rank
    exact List.mem_cons_self _ _
  · intro world h
    rcases hm : compute_v2t_metrics sim score (localList world 0) with _ | ⟨m, ns, nv⟩
    · exact absurd (by simp [on_validation_epoch_end, hm]) h
    · simp [on_validation_epoch_end, hm, updatesOf, valUpdateEffects,
        valLogEffects, valLogNames]
  · intro w1 w2 he
    rcases hm : compute_v2t_metrics sim score (localList w2 0) with _ | ⟨m, ns, nv⟩ <;>
      simp [on_validation_epoch_end, he, hm, updatesOf]

/-- Witness for C1 at concrete inputs: a singleton world for the names
fact, and two worlds sharing the coordinator list but differing at rank 1
for the independence fact. -/
theorem val_metrics_local_only_witness :
    (updatesOf (on_validation_epoch_end simShape score0 [[o1]] 0)).map
        Prod.fst =
      ["val_m1_recall_at_1", "val_m1_recall_at_5", "val_m1_recall_at_10",
        "val_m2_recall_at_1", "val_m2_recall_at_5", "val_m2_recall_at_10"] ∧
    updatesOf (on_validation_epoch_end simShape score0 [[o1], [o1]] 0) =
      updatesOf (on_validation_epoch_end simShape score0 [[o1], [o2]] 0) :=
  ⟨(val_metrics_local_only simShape score0).2.1 [[o1]] (by decide),
    (val_metrics_local_only simShape score0).2.2 [[o1], [o1]] [[o1], [o2]]
      (by decide)⟩

/-- C9: at validation epoch end the six `log` calls are outside the
coordinator guard: whenever the hook does not raise, every rank —
coordinator or not — logs exactly the six validation metric names, even
though a non-coordinator rank performs no metric update at all. -/
theorem val_logging_all_ranks (sim : SimFn) (score : ScoreFn)
    (world : List (List StepOutput)) (rank : Nat) :
    (Effect.crash ∉ on_validation_epoch_end sim score world rank →
      logsOf (on_validation_epoch_end sim score world rank) = valLogNames) ∧
    (rank ≠ 0 → updatesOf (on_validation_epoch_end sim score world rank) = []) := by
  constructor
  · intro h
    by_cases hr : rank = 0
    · subst hr
      rcases hm : compute_v2t_metrics sim score (localList world 0) with _ | ⟨m, ns, nv⟩
      · exact absurd (by simp [on_validation_epoch_end, hm]) h
      · simp [on_validation_epoch_end, hm, logsOf, valUpdateEffects,
          valLogEffects, valLogNames]
    · simp [on_validation_epoch_end, hr, logsOf, valLogEffects, valLogNames]
  · intro hr
    simp [on_validation_epoch_end, hr, updatesOf, valLogEffects, valLogNames]

/-- Witness for C9: the logging fact on the coordinator with a nonempty
list, and the no-update fact on rank 1. -/
theorem val_logging_all_ranks_witness :
    logsOf (on_validation_epoch_end simShape score0 [[o1]] 0) = valLogNames ∧
    updatesOf (on_validation_epoch_end simShape score0 [[o1]] 1) = [] :=
  ⟨(val_logging_all_ranks simShape score0 [[o1]] 0).1 (by decide),
    (val_logging_all_ranks simShape score0 [[o1]] 1).2 (by decide)⟩

/-- C2 counterexample: in a two-process world whose processes hold
different test outputs, the coordinator's `on_test_epoch_end` produces
metric updates different from those of the claimed
gather-then-discard-then-recompute-locally (validation-style) pattern:
the code scores the gathered two-process concatenation, the claimed
pattern only the coordinator's one local record. -/
theorem test_epoch_end_gather_used_cex :
    updatesOf (on_test_epoch_end simShape score0 [[o1], [o2]] 0) ≠
      updatesOf (on_test_epoch_end_spec_local simShape score0 [[o1], [o2]] 0) := by
  decide

/-- C2 amended: `on_test_epoch_end` does not discard the gathered result;
on the coordinator it computes the test metrics from the flattened
concatenation of all processes' lists.  Equivalently, its behaviour on
any world equals the local (validation-style) computation applied to the
single-process world holding the flattened concatenation — so the claimed
equivalence with the local pattern holds exactly when the whole world is
that one flattened list (e.g. a single-process run). -/
theorem test_epoch_end_computes_from_gathered (sim : SimFn)
    (score : ScoreFn) (world : List (List StepOutput)) :
    on_test_epoch_end sim score world 0 =
      on_test_epoch_end_spec_local sim score [world.flatten] 0 := by
  simp [on_test_epoch_end, on_test_epoch_end_spec_local, gather_outputs,
    localList]

/-- C8 counterexample: on a concrete batch with 2 pool items and 3 query
items (and a model instance respecting the `(n_seq, n_vis)` output shape
noted on line 341), the matrix handed to `compute_scores` has 3 rows —
the query count — not the pool count 2 claimed for its row dimension. -/
theorem scorer_input_shape_cex :
    (retrieveLogits simShape [oC]).length ≠ (poolIds [oC]).length ∧
    (retrieveLogits simShape [oC]).length = 3 ∧
    (poolIds [oC]).length = 2 := by
  decide

/-- C8 amended: the raw similarity matrix — of shape
(pool-count × query-count) per the model contract, since the sequence
side is the pool and the visual side the query — is transposed before
being passed to `compute_scores`, so (on a well-formed, pool-nonempty
batch) the scorer receives a matrix with one row per query identity key
and one column per pool identity key, whose entry `(i, j)` is the raw
entry `(j, i)`. -/
theorem scorer_receives_query_rows (sim : SimFn)
    (hshape : ∀ s f v a m : List Int,
      (sim s f v a m).length = s.length ∧
        ∀ row ∈ sim s f v a m, row.length = v.length)
    (outputs : List StepOutput)
    (hwf : ∀ o ∈ outputs, wfOutput o = true)
    (hpool : poolSeq outputs ≠ []) :
    (retrieveLogits sim outputs).length = (queryIds outputs).length ∧
    (∀ row ∈ retrieveLogits sim outputs,
      row.length = (poolIds outputs).length) ∧
    (∀ i j : Nat, i < (queryIds outputs).length →
      j < (poolIds outputs).length →
        ((retrieveLogits sim outputs).getD i []).getD j 0 =
          ((rawLogits sim outputs).getD j []).getD i 0) := by
  have hvq : ∀ o ∈ outputs,
      (StepOutput.visual_output o).length = (StepOutput.is_query o).length :=
    fun o ho => by have h := hwf o ho; simp [wfOutput] at h; omega
  have hsq : ∀ o ∈ outputs,
      (StepOutput.sequence_output o).length = (StepOutput.is_query o).length :=
    fun o ho => by have h := hwf o ho; simp [wfOutput] at h; omega
  have hpq : ∀ o ∈ outputs,
      (StepOutput.is_pool o).length = (StepOutput.is_query o).length :=
    fun o ho => by have h := hwf o ho; simp [wfOutput] at h; omega
  have hrq : ∀ o ∈ outputs,
      (StepOutput.recipe_id o).length = (StepOutput.is_query o).length :=
    fun o ho => by have h := hwf o ho; simp [wfOutput] at h; omega
  have hkq : ∀ o ∈ outputs,
      (StepOutput.kitchen_id o).length = (StepOutput.is_query o).length :=
    fun o ho => by have h := hwf o ho; simp [wfOutput] at h; omega
  have haq : ∀ o ∈ outputs,
      (StepOutput.ap_id o).length = (StepOutput.is_query o).length :=
    fun o ho => by have h := hwf o ho; simp [wfOutput] at h; omega
  have hA : (catField StepOutput.visual_output outputs).length =
      (catIsQuery outputs).length := by
    simp only [catField, catIsQuery, catFlag]
    exact flatten_map_length_eq _ _ outputs hvq
  have hS : (catField StepOutput.sequence_output outputs).length =
      (catIsQuery outputs).length := by
    simp only [catField, catIsQuery, catFlag]
    exact flatten_map_length_eq _ _ outputs hsq
  have hP : (catIsPool outputs).length = (catIsQuery outputs).length := by
    simp only [catIsPool, catIsQuery, catFlag]
    exact flatten_map_length_eq _ _ outputs hpq
  have hR : (catField StepOutput.recipe_id outputs).length =
      (catIsQuery outputs).length := by
    simp only [catField, catIsQuery, catFlag]
    exact flatten_map_length_eq _ _ outputs hrq
  have hK : (catField StepOutput.kitchen_id outputs).length =
      (catIsQuery outputs).length := by
    simp only [catField, catIsQuery, catFlag]
    exact flatten_map_length_eq _ _ outputs hkq
  have hAp : (catField StepOutput.ap_id outputs).length =
      (catIsQuery outputs).length := by
    simp only [catField, catIsQuery, catFlag]
    exact flatten_map_length_eq _ _ outputs haq
  have hIds : (catIds outputs).length = (catIsQuery outputs).length := by
    simp only [catIds]
    rw [zip3_length _ _ _ (hR.trans hK.symm) (hR.trans hAp.symm)]
    exact hR
  have hqids : (queryIds outputs).length = countTrue (catIsQuery outputs) :=
    maskSelect_length _ _ hIds.symm
  have hqvis : (queryVis outputs).length = countTrue (catIsQuery outputs) :=
    maskSelect_length _ _ hA.symm
  have hpids : (poolIds outputs).length = countTrue (catIsPool outputs) :=
    maskSelect_length _ _ (hP.trans hIds.symm)
  have hpseq : (poolSeq outputs).length = countTrue (catIsPool outputs) :=
    maskSelect_length _ _ (hP.trans hS.symm)
  have hrawlen : (rawLogits sim outputs).length = (poolSeq outputs).length :=
    (hshape (poolSeq outputs) (poolFeat outputs) (queryVis outputs)
      (poolAttn outputs) (queryVmask outputs)).1
  have hrawrows : ∀ row ∈ rawLogits sim outputs,
      row.length = (queryVis outputs).length :=
    (hshape (poolSeq outputs) (poolFeat outputs) (queryVis outputs)
      (poolAttn outputs) (queryVmask outputs)).2
  have hrawne : rawLogits sim outputs ≠ [] := by
    intro hraw
    apply hpool
    have h0 : (poolSeq outputs).length = 0 := by
      rw [← hrawlen, hraw]
      rfl
    exact List.length_eq_zero.mp h0
  have htr := transposeM_rows (rawLogits sim outputs)
    (queryVis outputs).length hrawne hrawrows
  have hqq : (queryVis outputs).length = (queryIds outputs).length := by
    rw [hqvis, hqids]
  have hpp : (rawLogits sim outputs).length = (poolIds outputs).length := by
    rw [hrawlen, hpseq, hpids]
  refine ⟨?_, ?_, ?_⟩
  · rw [retrieveLogits, htr.1, hqq]
  · intro row hrow
    rw [← hpp]
    exact htr.2 row hrow
  · intro i j hi hj
    exact transposeM_entry (rawLogits sim outputs)
      (queryVis outputs).length hrawrows i j (by rw [hqq]; exact hi)
      (by rw [hpp]; exact hj)

/-- Witness for the amended C8 at the concrete five-item batch: the
scorer's matrix has one row per query key (3). -/
theorem scorer_receives_query_rows_witness :
    (retrieveLogits simShape [oC]).length = (queryIds [oC]).length :=
  (scorer_receives_query_rows simShape simShape_rect [oC] (by decide)
    (by decide)).1

/-- Witness for C6 at a concrete two-parameter list. -/
theorem param_groups_partition_witness :
    (configure_optimizers_groups 1 2
        [("clip.weight", (0 : Nat)), ("fusion.bias", 1)]).map
      (fun g => (g.params, g.weight_decay, g.lr)) =
      [((decay_clip_param_tp noDecayDefault "clip."
          [("clip.weight", (0 : Nat)), ("fusion.bias", 1)]).map
            (fun np => np.2), 0.2, some (1 * 2)),
        ((decay_noclip_param_tp noDecayDefault "clip."
          [("clip.weight", (0 : Nat)), ("fusion.bias", 1)]).map
            (fun np => np.2), 0.2, none),
        ((no_decay_clip_param_tp noDecayDefault "clip."
          [("clip.weight", (0 : Nat)), ("fusion.bias", 1)]).map
            (fun np => np.2), 0, some (1 * 2)),
        ((no_decay_noclip_param_tp noDecayDefault "clip."
          [("clip.weight", (0 : Nat)), ("fusion.bias", 1)]).map
            (fun np => np.2), 0, none)] :=
  (param_groups_partition 1 2
    [("clip.weight", (0 : Nat)), ("fusion.bias", 1)]).2.2.1
